import Mathlib

/-!
Verification of the decision-making core of the apologies board-game engine:
the reward calculator (reward.py) and the character input sources (source.py).

Conventions of the embedding:
- Python integers are modelled by Int. The calculator computes with ints and
  converts the final reward with float(); on these values the conversion is
  value-preserving, so calculate and range are modelled at the Int level.
- The game-state collaborator (game.py) and the board rules (rules.py) are not
  part of the two analysed files. Their small surface is modelled from the
  spec: a Position carries the home flag and the optional safe-zone index, a
  Pawn carries its Position together with the integer that
  BoardRules.distance_to_home returns for it (quantifying over pawns then
  quantifies over all possible distance functions), and Player exposes the
  derived predicate all_pawns_in_home.
- Moves are opaque tokens: definitions over moves are polymorphic in the move
  type.
-/

/-- Game mode enumeration; the algorithms of the core are mode-agnostic but
choose_move receives the mode. -/
inductive GameMode where
  | STANDARD
  | ADULT
  deriving Repr, DecidableEq

/-- Modelled from the spec: the Position value type of the game-state
collaborator. Attributes consumed by the core: home (boolean) and safe
(optional zone index; none when the pawn is not in its safe zone). -/
structure Position where
  home : Bool
  safe : Option Nat
  deriving Repr, DecidableEq

/-- Modelled from the spec: a Pawn of the game-state collaborator, carrying its
Position and, additionally, the integer the external BoardRules collaborator
reports as distance_to_home for it. -/
structure Pawn where
  position : Position
  dist : Int
  deriving Repr, DecidableEq

/-- Modelled from the spec: BoardRules.distance_to_home(pawn) -> integer, the
number of board steps a pawn still needs to travel; external collaborator, so
the value is read off the pawn. -/
def BoardRules.distance_to_home (pawn : Pawn) : Int :=
  pawn.dist

/-- Modelled from the spec: a Player of the game-state collaborator, a
participant with a collection of pawns (4 in the reference configuration). -/
structure Player where
  pawns : List Pawn
  deriving Repr, DecidableEq

/-- Modelled from the spec: the derived predicate "all pawns in home" (the win
condition) exposed by Player. -/
def Player.all_pawns_in_home (player : Player) : Bool :=
  player.pawns.all (fun pawn => pawn.position.home)

/-- Modelled from the spec: a PlayerView, the acting player plus the opponents.
Python stores the opponents in a dict keyed by identity; the core only uses
len(view.opponents) and view.opponents.values(), so a list of the values
suffices. -/
structure PlayerView where
  player : Player
  opponents : List Player
  deriving Repr, DecidableEq

namespace RewardCalculatorV1

/-- Incentive of 1 point for each square closer to home for each of the pawns
of the player: 260 - sum of distance_to_home over the pawns. -/
def _distance_incentive (player : Player) : Int :=
  260 - (player.pawns.map (fun pawn => BoardRules.distance_to_home pawn)).sum

/-- Incentive of 10 points for each pawn in safe or home. -/
def _safe_incentive (player : Player) : Int :=
  (player.pawns.map (fun pawn =>
    if pawn.position.home || pawn.position.safe.isSome then (10 : Int) else 0)).sum

/-- Incentive of 100 points for winning the game. -/
def _winner_incentive (player : Player) : Int :=
  if player.all_pawns_in_home then 100 else 0

/-- The per-player score: the sum of the three incentives. -/
def _player_score (player : Player) : Int :=
  _distance_incentive player + _safe_incentive player + _winner_incentive player

/-- The reward: the position of the player relative to the opponents, clamped
at zero. -/
def _reward (view : PlayerView) : Int :=
  let player_score := _player_score view.player
  let opponent_scores := view.opponents.map (fun player => _player_score player)
  let reward := (view.opponents.length : Int) * player_score - opponent_scores.sum
  if reward < 0 then 0 else reward

/-- calculate(view): Python wraps _reward in float(); the conversion is
value-preserving on these integers, so it is modelled as the identity. -/
def calculate (view : PlayerView) : Int :=
  _reward view

/-- range(players) = (0.0, float((players - 1) * 400)), at the Int level. -/
def range (players : Int) : Int × Int :=
  (0, (players - 1) * 400)

end RewardCalculatorV1

/-- A player scoring 300: four pawns in the safe zone at distance 0; distance
incentive 260, safety incentive 40, no winner bonus. -/
def playerScore300 : Player :=
  ⟨List.replicate 4 (Pawn.mk ⟨false, some 0⟩ 0)⟩

/-- A player scoring 100: four pawns on the circuit at distance 40 each;
distance incentive 260 - 160 = 100, no other bonus. -/
def playerScore100 : Player :=
  ⟨List.replicate 4 (Pawn.mk ⟨false, none⟩ 40)⟩

/-- A player scoring 150: distances summing to 110, no flags. -/
def playerScore150 : Player :=
  ⟨[Pawn.mk ⟨false, none⟩ 110, Pawn.mk ⟨false, none⟩ 0,
    Pawn.mk ⟨false, none⟩ 0, Pawn.mk ⟨false, none⟩ 0]⟩

/-- A player scoring 200: distances summing to 60, no flags. -/
def playerScore200 : Player :=
  ⟨[Pawn.mk ⟨false, none⟩ 60, Pawn.mk ⟨false, none⟩ 0,
    Pawn.mk ⟨false, none⟩ 0, Pawn.mk ⟨false, none⟩ 0]⟩

/-- A player with all four pawns home at distance 0: the maximal score 400. -/
def playerAllHome : Player :=
  ⟨List.replicate 4 (Pawn.mk ⟨true, none⟩ 0)⟩

/-! Embedding of source.py.  Python list.sort(reverse=True, key=e[1]) is a
stable sort by score descending: the output is the unique permutation that is
sorted by score descending and keeps entries with equal scores in their input
order.  It is modelled by a stable insertion sort producing exactly that
list. -/

/-- One stable insertion step: x goes after every entry with a strictly
greater score and before the first entry whose score is not greater. -/
def insertByScoreDesc {μ : Type} (x : μ × Int) : List (μ × Int) → List (μ × Int)
  | [] => [x]
  | y :: ys => if x.2 < y.2 then y :: insertByScoreDesc x ys else x :: y :: ys

/-- Stable sort of (move, score) pairs by score descending. -/
def sortByScoreDesc {μ : Type} : List (μ × Int) → List (μ × Int)
  | [] => []
  | x :: xs => insertByScoreDesc x (sortByScoreDesc xs)

namespace RewardInputSource

/-- choose_move of RewardInputSource, generic in the abstract calculate step
exactly as the Python class is: score every legal move, stable-sort the
(move, score) pairs by score descending, return the move of the top pair.
evaluated[0] on an empty list raises IndexError, modelled by none. -/
def choose_move {μ : Type}
    (calculate : PlayerView → μ → (PlayerView → μ → PlayerView) → μ × Int)
    (mode : GameMode) (view : PlayerView) (legal_moves : List μ)
    (evaluator : PlayerView → μ → PlayerView) : Option μ :=
  let evaluated := legal_moves.map (fun move => calculate view move evaluator)
  ((sortByScoreDesc evaluated).head?).map Prod.fst

end RewardInputSource

namespace RandomInputSource

/-- choose_move of RandomInputSource: random.choice(legal_moves) is the entry
at a random index below the length; the randomness is modelled by the explicit
draw r.  On an empty list random.choice raises IndexError, modelled by none. -/
def choose_move {μ : Type} (mode : GameMode) (view : PlayerView)
    (legal_moves : List μ) (r : Nat) : Option μ :=
  legal_moves[r % legal_moves.length]?

end RandomInputSource

namespace RewardV1InputSource

/-- calculate of RewardV1InputSource: the move paired with the
RewardCalculatorV1 reward of the evaluated view. -/
def calculate {μ : Type} (view : PlayerView) (move : μ)
    (evaluator : PlayerView → μ → PlayerView) : μ × Int :=
  (move, RewardCalculatorV1.calculate (evaluator view move))

/-- choose_move of RewardV1InputSource: the inherited RewardInputSource
algorithm instantiated with the concrete calculate step. -/
def choose_move {μ : Type} (mode : GameMode) (view : PlayerView)
    (legal_moves : List μ) (evaluator : PlayerView → μ → PlayerView) : Option μ :=
  RewardInputSource.choose_move calculate mode view legal_moves evaluator

end RewardV1InputSource

/-- A Python runtime object as the factory sees it: a class, tagged with
whether it is a subclass of CharacterInputSource, or any non-class object. -/
inductive PyObj where
  | cls (isCharacterInputSource : Bool)
  | nonClass
  deriving Repr, DecidableEq

/-- Python exceptions the factory can surface. -/
inductive PyError where
  | typeError (msg : String)
  | valueError (msg : String)
  deriving Repr, DecidableEq

/-- An instance produced by the zero-argument constructor cls() of the class
the factory resolved. -/
structure PyInstance where
  className : String
  deriving Repr, DecidableEq

/-- Python issubclass(cls, CharacterInputSource): a TypeError when the first
argument is not a class, in particular when it is None (the result of a failed
pydoc.locate); otherwise the subclass flag of the class. -/
def issubclassCIS : Option PyObj → Except PyError Bool
  | some (PyObj.cls b) => Except.ok b
  | some PyObj.nonClass => Except.error (PyError.typeError "issubclass() arg 1 must be a class")
  | none => Except.error (PyError.typeError "issubclass() arg 1 must be a class")

/-- source(name) of source.py: cls = locate(name); if not issubclass(cls,
CharacterInputSource): raise ValueError(name + " is not a
CharacterInputSource"); return cls().  pydoc.locate is modelled by an
environment mapping names to optional runtime objects (none when the name
does not resolve). -/
def source (locate : String → Option PyObj) (name : String) : Except PyError PyInstance :=
  match issubclassCIS (locate name) with
  | Except.error e => Except.error e
  | Except.ok true => Except.ok (PyInstance.mk name)
  | Except.ok false => Except.error (PyError.valueError (name ++ " is not a CharacterInputSource"))

/-- Summing 10-or-0 over a list equals 10 times the number of elements
satisfying the predicate. -/
theorem sum_map_ite_ten (l : List Pawn) (p : Pawn → Bool) :
    (l.map (fun pawn => if p pawn then (10 : Int) else 0)).sum
      = 10 * ((l.filter p).length : Int) := by
  induction l with
  | nil => simp
  | cons x xs ih => by_cases h : p x <;> simp [List.filter_cons, h, ih] <;> ring

/-- C1: calculate is the clamped comparative reward: the number of opponents
times the score of the acting player, minus the sum of the opponent scores,
floored at zero; the two concrete scenarios of the spec follow: scores 300 vs
a single 100 give 200, and 100 vs 150 and 200 give a raw -150 clamped to 0. -/
theorem C1_comparative_clamped_reward :
    (∀ view : PlayerView, view.opponents ≠ [] →
      RewardCalculatorV1.calculate view =
        max 0 ((view.opponents.length : Int) * RewardCalculatorV1._player_score view.player
          - (view.opponents.map (fun opponent => RewardCalculatorV1._player_score opponent)).sum))
    ∧ RewardCalculatorV1._player_score playerScore300 = 300
    ∧ RewardCalculatorV1._player_score playerScore100 = 100
    ∧ RewardCalculatorV1.calculate ⟨playerScore300, [playerScore100]⟩ = 200
    ∧ RewardCalculatorV1._player_score playerScore150 = 150
    ∧ RewardCalculatorV1._player_score playerScore200 = 200
    ∧ RewardCalculatorV1.calculate ⟨playerScore100, [playerScore150, playerScore200]⟩ = 0 := by
  refine ⟨fun view _hne => ?_, by decide, by decide, by decide, by decide, by decide, by decide⟩
  simp only [RewardCalculatorV1.calculate, RewardCalculatorV1._reward]
  split
  · exact (max_eq_left (le_of_lt (by assumption))).symm
  · exact (max_eq_right (not_lt.mp (by assumption))).symm

/-- C2: the per-player score decomposes into the distance incentive
(260 minus the summed distances), 10 points per pawn in home or safe, and a
100-point winner bonus, with the concrete all-home scenario scoring
260 + 40 + 100 = 400. -/
theorem C2_player_score_decomposition :
    (∀ player : Player,
      RewardCalculatorV1._player_score player =
        (260 - (player.pawns.map (fun pawn => BoardRules.distance_to_home pawn)).sum)
        + 10 * ((player.pawns.filter
            (fun pawn => pawn.position.home || pawn.position.safe.isSome)).length : Int)
        + (if player.all_pawns_in_home then 100 else 0))
    ∧ RewardCalculatorV1._distance_incentive playerAllHome = 260
    ∧ RewardCalculatorV1._safe_incentive playerAllHome = 40
    ∧ RewardCalculatorV1._winner_incentive playerAllHome = 100
    ∧ RewardCalculatorV1._player_score playerAllHome = 400 := by
  refine ⟨fun player => ?_, by decide, by decide, by decide, by decide⟩
  simp only [RewardCalculatorV1._player_score, RewardCalculatorV1._distance_incentive,
    RewardCalculatorV1._safe_incentive, RewardCalculatorV1._winner_incentive,
    sum_map_ite_ten]

theorem insertByScoreDesc_perm {μ : Type} (x : μ × Int) (l : List (μ × Int)) :
    (insertByScoreDesc x l).Perm (x :: l) := by
  induction l with
  | nil => exact List.Perm.refl _
  | cons y ys ih =>
    simp only [insertByScoreDesc]
    split
    · exact (ih.cons y).trans (List.Perm.swap x y ys)
    · exact List.Perm.refl _

theorem sortByScoreDesc_perm {μ : Type} (l : List (μ × Int)) :
    (sortByScoreDesc l).Perm l := by
  induction l with
  | nil => exact List.Perm.refl _
  | cons x xs ih => exact (insertByScoreDesc_perm x (sortByScoreDesc xs)).trans (ih.cons x)

theorem mem_insertByScoreDesc {μ : Type} {x e : μ × Int} {l : List (μ × Int)} :
    e ∈ insertByScoreDesc x l ↔ e = x ∨ e ∈ l := by
  constructor
  · intro h
    have := (insertByScoreDesc_perm x l).mem_iff.mp h
    simpa using this
  · intro h
    apply (insertByScoreDesc_perm x l).mem_iff.mpr
    simpa using h

theorem insertByScoreDesc_pairwise {μ : Type} (x : μ × Int) {l : List (μ × Int)}
    (hl : l.Pairwise (fun a b => b.2 ≤ a.2)) :
    (insertByScoreDesc x l).Pairwise (fun a b => b.2 ≤ a.2) := by
  induction l with
  | nil => simp [insertByScoreDesc]
  | cons y ys ih =>
    rw [List.pairwise_cons] at hl
    simp only [insertByScoreDesc]
    split
    · rw [List.pairwise_cons]
      refine ⟨fun e he => ?_, ih hl.2⟩
      rcases mem_insertByScoreDesc.mp he with rfl | he
      · exact le_of_lt (by assumption)
      · exact hl.1 e he
    · rw [List.pairwise_cons]
      exact ⟨fun e he => by
        rcases List.mem_cons.mp he with rfl | he
        · exact not_lt.mp (by assumption)
        · exact le_trans (hl.1 e he) (not_lt.mp (by assumption)),
        List.pairwise_cons.mpr hl⟩

theorem sortByScoreDesc_pairwise {μ : Type} (l : List (μ × Int)) :
    (sortByScoreDesc l).Pairwise (fun a b => b.2 ≤ a.2) := by
  induction l with
  | nil => simp [sortByScoreDesc]
  | cons x xs ih => exact insertByScoreDesc_pairwise x ih

theorem filter_insertByScoreDesc {μ : Type} (x : μ × Int) (l : List (μ × Int)) (s : Int) :
    (insertByScoreDesc x l).filter (fun e => e.2 == s)
      = if x.2 == s then x :: l.filter (fun e => e.2 == s)
        else l.filter (fun e => e.2 == s) := by
  induction l with
  | nil => simp [insertByScoreDesc, List.filter_cons]
  | cons y ys ih =>
    simp only [insertByScoreDesc]
    split
    · rw [List.filter_cons, List.filter_cons, ih]
      by_cases hx : x.2 == s
      · have hy : (y.2 == s) = false := by
          have hlt : x.2 < y.2 := by assumption
          have : x.2 = s := by simpa using hx
          simp only [beq_eq_false_iff_ne, ne_eq]
          omega
        simp [hx, hy]
      · simp [hx]
    · rw [List.filter_cons, List.filter_cons]

/-- The stable sort leaves the sublist of entries carrying any fixed score
untouched: equal scores keep their input order. -/
theorem sortByScoreDesc_filter {μ : Type} (l : List (μ × Int)) (s : Int) :
    (sortByScoreDesc l).filter (fun e => e.2 == s)
      = l.filter (fun e => e.2 == s) := by
  induction l with
  | nil => rfl
  | cons x xs ih =>
    simp only [sortByScoreDesc]
    rw [filter_insertByScoreDesc, List.filter_cons, ih]

/-- The head of the sorted list is an input entry of maximal score. -/
theorem sortByScoreDesc_head_max {μ : Type} {l : List (μ × Int)} {a : μ × Int}
    {rest : List (μ × Int)} (h : sortByScoreDesc l = a :: rest) :
    a ∈ l ∧ ∀ e ∈ l, e.2 ≤ a.2 := by
  have hperm := sortByScoreDesc_perm l
  rw [h] at hperm
  constructor
  · exact hperm.mem_iff.mp (List.mem_cons_self a rest)
  · intro e he
    rcases List.mem_cons.mp (hperm.mem_iff.mpr he) with rfl | hr
    · exact le_refl _
    · have hp := sortByScoreDesc_pairwise l
      rw [h, List.pairwise_cons] at hp
      exact hp.1 e hr

/-- A nonempty list sorts to a nonempty list. -/
theorem sortByScoreDesc_ne_nil {μ : Type} {l : List (μ × Int)} (h : l ≠ []) :
    ∃ a rest, sortByScoreDesc l = a :: rest := by
  have hperm := sortByScoreDesc_perm l
  cases hs : sortByScoreDesc l with
  | nil => rw [hs] at hperm; exact absurd (hperm.symm.eq_nil) h
  | cons a rest => exact ⟨a, rest, rfl⟩

/-- The head of the stable descending sort is the first entry of the input
carrying the maximal score M. -/
theorem sortByScoreDesc_head?_eq {μ : Type} (L : List (μ × Int)) (M : Int)
    (hle : ∀ e ∈ L, e.2 ≤ M) (hex : ∃ e ∈ L, e.2 = M) :
    (sortByScoreDesc L).head? = (L.filter (fun e => e.2 == M)).head? := by
  have hLne : L ≠ [] := by
    rintro rfl
    simp at hex
  obtain ⟨a, rest, hsort⟩ := sortByScoreDesc_ne_nil hLne
  obtain ⟨haL, hmax⟩ := sortByScoreDesc_head_max hsort
  have haM : a.2 = M := by
    obtain ⟨e, he, heM⟩ := hex
    have h1 := hle a haL
    have h2 := hmax e he
    omega
  rw [← sortByScoreDesc_filter L M, hsort, List.filter_cons]
  simp [haM]

/-- choose_move of RewardInputSource returns the first legal move whose score
is the maximal score M, for any calculate step that pairs each move with
itself (the documented contract of the abstract calculate). -/
theorem choose_move_eq_first_best {μ : Type}
    (calcf : PlayerView → μ → (PlayerView → μ → PlayerView) → μ × Int)
    (mode : GameMode) (view : PlayerView) (legal_moves : List μ)
    (evaluator : PlayerView → μ → PlayerView) (M : Int)
    (hfst : ∀ move, (calcf view move evaluator).1 = move)
    (hle : ∀ move ∈ legal_moves, (calcf view move evaluator).2 ≤ M)
    (hex : ∃ move ∈ legal_moves, (calcf view move evaluator).2 = M) :
    RewardInputSource.choose_move calcf mode view legal_moves evaluator =
      (legal_moves.filter (fun move => (calcf view move evaluator).2 == M)).head? := by
  have hle' : ∀ e ∈ legal_moves.map (fun move => calcf view move evaluator), e.2 ≤ M := by
    intro e he
    obtain ⟨m, hm, rfl⟩ := List.mem_map.mp he
    exact hle m hm
  have hex' : ∃ e ∈ legal_moves.map (fun move => calcf view move evaluator), e.2 = M := by
    obtain ⟨m, hm, hM⟩ := hex
    exact ⟨_, List.mem_map_of_mem _ hm, hM⟩
  have hhead := sortByScoreDesc_head?_eq _ M hle' hex'
  show ((sortByScoreDesc
      (legal_moves.map (fun move => calcf view move evaluator))).head?).map Prod.fst = _
  rw [hhead, List.filter_map, List.head?_map, Option.map_map]
  have hcomp : (Prod.fst ∘ fun move => calcf view move evaluator) = id :=
    funext fun m => hfst m
  rw [hcomp, Option.map_id]
  rfl

/-- C3: the descending sort inside choose_move is stable (filtering the sorted
pairs to any fixed score returns exactly the input sublist in input order),
and consequently, for a conforming calculate step, choose_move returns the
move that appears first in legal_moves among those attaining the maximal
score. -/
theorem C3_stable_tie_break :
    (∀ (μ : Type) (calcf : PlayerView → μ → (PlayerView → μ → PlayerView) → μ × Int)
       (mode : GameMode) (view : PlayerView) (legal_moves : List μ)
       (evaluator : PlayerView → μ → PlayerView) (M : Int),
       (∀ move, (calcf view move evaluator).1 = move) →
       (∀ move ∈ legal_moves, (calcf view move evaluator).2 ≤ M) →
       (∃ move ∈ legal_moves, (calcf view move evaluator).2 = M) →
       RewardInputSource.choose_move calcf mode view legal_moves evaluator =
         (legal_moves.filter (fun move => (calcf view move evaluator).2 == M)).head?)
    ∧ (∀ (μ : Type) (l : List (μ × Int)) (s : Int),
       (sortByScoreDesc l).filter (fun e => e.2 == s) = l.filter (fun e => e.2 == s)) :=
  ⟨fun _ calcf mode view legal_moves evaluator M hfst hle hex =>
      choose_move_eq_first_best calcf mode view legal_moves evaluator M hfst hle hex,
    fun _ l s => sortByScoreDesc_filter l s⟩

/-- C4: for a nonempty list of legal moves, choose_move of RewardV1InputSource
returns some element of legal_moves, and that element has maximal
RewardCalculatorV1 score among the candidates. -/
theorem C4_choose_move_member_maximal {μ : Type} (mode : GameMode) (view : PlayerView)
    (legal_moves : List μ) (evaluator : PlayerView → μ → PlayerView)
    (h : legal_moves ≠ []) :
    ∃ m ∈ legal_moves,
      RewardV1InputSource.choose_move mode view legal_moves evaluator = some m ∧
      ∀ m' ∈ legal_moves,
        RewardCalculatorV1.calculate (evaluator view m')
          ≤ RewardCalculatorV1.calculate (evaluator view m) := by
  have hLne : legal_moves.map (fun move => RewardV1InputSource.calculate view move evaluator)
      ≠ [] := by
    cases legal_moves with
    | nil => exact absurd rfl h
    | cons x xs => simp
  obtain ⟨a, rest, hsort⟩ := sortByScoreDesc_ne_nil hLne
  obtain ⟨haL, hmax⟩ := sortByScoreDesc_head_max hsort
  obtain ⟨m, hm, hfm⟩ := List.mem_map.mp haL
  refine ⟨m, hm, ?_, ?_⟩
  · show ((sortByScoreDesc
        (legal_moves.map (fun move => RewardV1InputSource.calculate view move evaluator))).head?).map
          Prod.fst = some m
    rw [hsort]
    simp only [List.head?_cons, Option.map_some']
    rw [← hfm]
    rfl
  · intro m' hm'
    have hle := hmax _ (List.mem_map_of_mem _ hm')
    rw [← hfm] at hle
    simpa [RewardV1InputSource.calculate] using hle

/-- Witness for C4 at a concrete input: a single legal move over the empty
view is returned. -/
theorem C4_choose_move_member_maximal_witness :
    ∃ m ∈ ([0] : List Nat),
      RewardV1InputSource.choose_move GameMode.STANDARD ⟨⟨[]⟩, []⟩ [0] (fun v _ => v) = some m ∧
      ∀ m' ∈ ([0] : List Nat),
        RewardCalculatorV1.calculate ((fun (v : PlayerView) (_ : Nat) => v) ⟨⟨[]⟩, []⟩ m')
          ≤ RewardCalculatorV1.calculate ((fun (v : PlayerView) (_ : Nat) => v) ⟨⟨[]⟩, []⟩ m) :=
  C4_choose_move_member_maximal GameMode.STANDARD ⟨⟨[]⟩, []⟩ [0] (fun v _ => v)
    (List.cons_ne_nil 0 [])

/-- C10: on an empty legal_moves list both choose_move implementations fail
(IndexError in Python, none here) instead of producing a move; being pure
functions of their arguments, they touch no state. -/
theorem C10_empty_legal_moves_error {μ : Type}
    (calcf : PlayerView → μ → (PlayerView → μ → PlayerView) → μ × Int)
    (mode : GameMode) (view : PlayerView) (evaluator : PlayerView → μ → PlayerView)
    (r : Nat) :
    RewardInputSource.choose_move calcf mode view [] evaluator = none ∧
    RandomInputSource.choose_move mode view ([] : List μ) r = none :=
  ⟨rfl, rfl⟩

/-- C5: for every PlayerView whatsoever, with no precondition on the pawn
distances, RewardCalculatorV1.calculate(view) is nonnegative: a negative raw
comparative value is floored to 0. -/
theorem C5_calculate_nonneg (view : PlayerView) :
    0 ≤ RewardCalculatorV1.calculate view := by
  simp only [RewardCalculatorV1.calculate, RewardCalculatorV1._reward]
  split <;> omega

/-- C6: for every player count p >= 1, RewardCalculatorV1.range(p) is exactly
the pair (0, 400 * (p - 1)). -/
theorem C6_range_eq (p : Int) (hp : 1 ≤ p) :
    RewardCalculatorV1.range p = (0, 400 * (p - 1)) := by
  simp only [RewardCalculatorV1.range, Prod.mk.injEq, true_and]
  ring

/-- Witness for C6 at the concrete player count 1: the range degenerates to
(0, 0). -/
theorem C6_range_eq_witness : RewardCalculatorV1.range 1 = (0, 0) := by
  have h := C6_range_eq 1 (by norm_num)
  simpa using h

/-- C8: decreasing the distance of one pawn, while keeping its position flags
and every other pawn fixed, never decreases the per-player score and in fact
strictly increases it. -/
theorem C8_score_increases_as_distance_drops (xs ys : List Pawn) (pos : Position)
    (d d' : Int) (h : d' < d) :
    RewardCalculatorV1._player_score ⟨xs ++ Pawn.mk pos d :: ys⟩
        ≤ RewardCalculatorV1._player_score ⟨xs ++ Pawn.mk pos d' :: ys⟩
    ∧ RewardCalculatorV1._player_score ⟨xs ++ Pawn.mk pos d :: ys⟩
        < RewardCalculatorV1._player_score ⟨xs ++ Pawn.mk pos d' :: ys⟩ := by
  simp only [RewardCalculatorV1._player_score, RewardCalculatorV1._distance_incentive,
    RewardCalculatorV1._safe_incentive, RewardCalculatorV1._winner_incentive,
    Player.all_pawns_in_home, BoardRules.distance_to_home, List.map_append,
    List.sum_append, List.map_cons, List.sum_cons, List.all_append, List.all_cons]
  constructor <;> linarith

/-- Witness for C8: moving a lone circuit pawn from distance 5 to distance 3
strictly increases the score. -/
theorem C8_score_increases_witness :
    RewardCalculatorV1._player_score ⟨[Pawn.mk ⟨false, none⟩ 5]⟩
        ≤ RewardCalculatorV1._player_score ⟨[Pawn.mk ⟨false, none⟩ 3]⟩
    ∧ RewardCalculatorV1._player_score ⟨[Pawn.mk ⟨false, none⟩ 5]⟩
        < RewardCalculatorV1._player_score ⟨[Pawn.mk ⟨false, none⟩ 3]⟩ :=
  C8_score_increases_as_distance_drops [] [] ⟨false, none⟩ 5 3 (by decide)

/-- Summing a list of integers all bounded by c is bounded by length * c. -/
theorem list_sum_le_length_mul (l : List Int) (c : Int) (h : ∀ x ∈ l, x ≤ c) :
    l.sum ≤ (l.length : Int) * c := by
  induction l with
  | nil => simp
  | cons x xs ih =>
    have hx := h x (List.mem_cons_self x xs)
    have hxs := ih (fun y hy => h y (List.mem_cons_of_mem x hy))
    simp only [List.sum_cons, List.length_cons]
    push_cast
    linarith

/-- Summing a list of nonnegative integers is nonnegative. -/
theorem list_sum_nonneg (l : List Int) (h : ∀ x ∈ l, 0 ≤ x) : 0 ≤ l.sum := by
  induction l with
  | nil => simp
  | cons x xs ih =>
    have hx := h x (List.mem_cons_self x xs)
    have hxs := ih (fun y hy => h y (List.mem_cons_of_mem x hy))
    simp only [List.sum_cons]
    linarith

/-- With 4 pawns and every distance inside [0, 65] the per-player score lies
in [0, 400]. -/
theorem player_score_bounds (player : Player) (h4 : player.pawns.length = 4)
    (hd : ∀ pawn ∈ player.pawns, 0 ≤ pawn.dist ∧ pawn.dist ≤ 65) :
    0 ≤ RewardCalculatorV1._player_score player
    ∧ RewardCalculatorV1._player_score player ≤ 400 := by
  have hdist_le : (player.pawns.map (fun pawn => BoardRules.distance_to_home pawn)).sum
      ≤ 260 := by
    have hb := list_sum_le_length_mul
      (player.pawns.map (fun pawn => BoardRules.distance_to_home pawn)) 65 ?_
    · rw [List.length_map, h4] at hb
      exact le_trans hb (by norm_num)
    · intro x hx
      obtain ⟨pawn, hpm, rfl⟩ := List.mem_map.mp hx
      exact (hd pawn hpm).2
  have hdist_ge : 0 ≤ (player.pawns.map (fun pawn => BoardRules.distance_to_home pawn)).sum := by
    apply list_sum_nonneg
    intro x hx
    obtain ⟨pawn, hpm, rfl⟩ := List.mem_map.mp hx
    exact (hd pawn hpm).1
  have hsafe_ge : 0 ≤ RewardCalculatorV1._safe_incentive player := by
    apply list_sum_nonneg
    intro x hx
    obtain ⟨pawn, _hpm, rfl⟩ := List.mem_map.mp hx
    split <;> norm_num
  have hsafe_le : RewardCalculatorV1._safe_incentive player ≤ 40 := by
    have hb := list_sum_le_length_mul
      (player.pawns.map (fun pawn =>
        if pawn.position.home || pawn.position.safe.isSome then (10 : Int) else 0)) 10 ?_
    · rw [List.length_map, h4] at hb
      exact le_trans hb (by norm_num)
    · intro x hx
      obtain ⟨pawn, _hpm, rfl⟩ := List.mem_map.mp hx
      split <;> norm_num
  have hwin : RewardCalculatorV1._winner_incentive player = 0
      ∨ RewardCalculatorV1._winner_incentive player = 100 := by
    simp only [RewardCalculatorV1._winner_incentive]
    split
    · right; rfl
    · left; rfl
  simp only [RewardCalculatorV1._player_score, RewardCalculatorV1._distance_incentive]
  rcases hwin with hw | hw <;> rw [hw] <;> constructor <;> linarith

/-- C9: with every participant holding exactly 4 pawns whose distances lie in
[0, 65], the reward stays inside the declared theoretical range
(0, 400 per opponent). -/
theorem C9_reward_within_range (view : PlayerView)
    (h4 : ∀ pl ∈ view.player :: view.opponents, pl.pawns.length = 4)
    (hd : ∀ pl ∈ view.player :: view.opponents, ∀ pawn ∈ pl.pawns,
      0 ≤ pawn.dist ∧ pawn.dist ≤ 65) :
    (RewardCalculatorV1.range (1 + (view.opponents.length : Int))).1
        ≤ RewardCalculatorV1.calculate view
    ∧ RewardCalculatorV1.calculate view
        ≤ (RewardCalculatorV1.range (1 + (view.opponents.length : Int))).2 := by
  have hplayer := player_score_bounds view.player
    (h4 _ (List.mem_cons_self _ _)) (hd _ (List.mem_cons_self _ _))
  have hopp : ∀ pl ∈ view.opponents,
      0 ≤ RewardCalculatorV1._player_score pl
      ∧ RewardCalculatorV1._player_score pl ≤ 400 := fun pl hpl =>
    player_score_bounds pl (h4 pl (List.mem_cons_of_mem _ hpl))
      (hd pl (List.mem_cons_of_mem _ hpl))
  have hsum_ge : 0 ≤ (view.opponents.map
      (fun player => RewardCalculatorV1._player_score player)).sum := by
    apply list_sum_nonneg
    intro x hx
    obtain ⟨pl, hpl, rfl⟩ := List.mem_map.mp hx
    exact (hopp pl hpl).1
  have hk : (0 : Int) ≤ (view.opponents.length : Int) := Int.ofNat_nonneg _
  have hmul : (view.opponents.length : Int) * RewardCalculatorV1._player_score view.player
      ≤ (view.opponents.length : Int) * 400 :=
    mul_le_mul_of_nonneg_left hplayer.2 hk
  simp only [RewardCalculatorV1.calculate, RewardCalculatorV1._reward,
    RewardCalculatorV1.range]
  split
  next hneg =>
    refine ⟨le_refl 0, ?_⟩
    show (0 : Int) ≤ (1 + (view.opponents.length : Int) - 1) * 400
    nlinarith
  next hpos =>
    refine ⟨not_lt.mp hpos, ?_⟩
    show (view.opponents.length : Int) * RewardCalculatorV1._player_score view.player
        - (view.opponents.map (fun player => RewardCalculatorV1._player_score player)).sum
      ≤ (1 + (view.opponents.length : Int) - 1) * 400
    linarith

/-- Witness for C9: a winning player against one opponent with pawns at
distance 40 each stays inside the range for two players. -/
theorem C9_reward_within_range_witness :
    (RewardCalculatorV1.range (1 + (([playerScore100] : List Player).length : Int))).1
        ≤ RewardCalculatorV1.calculate ⟨playerAllHome, [playerScore100]⟩
    ∧ RewardCalculatorV1.calculate ⟨playerAllHome, [playerScore100]⟩
        ≤ (RewardCalculatorV1.range (1 + (([playerScore100] : List Player).length : Int))).2 :=
  C9_reward_within_range ⟨playerAllHome, [playerScore100]⟩ (by decide) (by decide)

/-- C7: what source(name) actually does in each case.  When the name resolves
to a class that is not a CharacterInputSource the claimed ValueError is
raised, and on success the instance of the named class is returned; but when
the name does not resolve at all (locate returns None), issubclass(None, ...)
raises a TypeError, not the ValueError the claim and the docstring of source
state, and the same happens when the name resolves to a non-class object. -/
theorem C7_source_failure_modes :
    source (fun _ => none) "NotARealClass"
        = Except.error (PyError.typeError "issubclass() arg 1 must be a class")
    ∧ (∀ msg, source (fun _ => none) "NotARealClass"
        ≠ Except.error (PyError.valueError msg))
    ∧ source (fun _ => some PyObj.nonClass) "apologies.source.random"
        = Except.error (PyError.typeError "issubclass() arg 1 must be a class")
    ∧ source (fun _ => some (PyObj.cls false)) "SomeClass"
        = Except.error (PyError.valueError "SomeClass is not a CharacterInputSource")
    ∧ source (fun _ => some (PyObj.cls true)) "apologies.source.RandomInputSource"
        = Except.ok (PyInstance.mk "apologies.source.RandomInputSource") := by
  refine ⟨rfl, ?_, rfl, rfl, rfl⟩
  intro msg h
  simp [source, issubclassCIS] at h
